import Mathlib

/-!
# Sensor graph (`gl_code.cpp`): history buffer, filter, position table, pipeline set-up

A shallow embedding of `sensor-graph/app/src/main/jni/gl_code.cpp`.

* `GLfloat`/`float` values are elements of an arbitrary type `F` that carries
  the operations the code uses (`+`, `-`, `*`, `1`, and `0` for the
  zero-initialised globals).  The history-buffer results hold for every such
  `F`; the numerical results take `F` to be a linear ordered field
  (exact arithmetic).
* `int` values are `Int`; `%` on `int` is the truncating `Int.tmod`.
* A C array is a `List`; every element access is bounds-checked and yields
  `none` when the index is outside the array.
* Calls into OpenGL ES and the Android sensor API are external: their results
  are inputs of the model, and the GL calls that `render` issues are recorded
  as a list of `GLCall`.
-/

namespace SensorGraph

/-! ## Data model -/

/-- `const int SENSOR_HISTORY_LENGTH = 100;` -/
def SENSOR_HISTORY_LENGTH : Nat := 100

/-- `const int SENSOR_REFRESH_RATE = 100;` -/
def SENSOR_REFRESH_RATE : Nat := 100

/-- `const int LOOPER_ID_USER = 3;` -/
def LOOPER_ID_USER : Nat := 3

/-- `struct AccelerometerData { GLfloat x; GLfloat y; GLfloat z; };` -/
structure AccelerometerData (F : Type) where
  x : F
  y : F
  z : F
deriving DecidableEq

/-- The `acceleration` member of an `ASensorEvent` (`android/sensor.h`). -/
structure ASensorVector (F : Type) where
  x : F
  y : F
  z : F
deriving DecidableEq

/-- An `ASensorEvent`, reduced to the member `update` reads. -/
structure ASensorEvent (F : Type) where
  acceleration : ASensorVector F
deriving DecidableEq

/-- The globals `update` reads and writes: `gSensorData`
(`AccelerometerData[SENSOR_HISTORY_LENGTH*2]`), `gSensorDataFilter` and
`gSensorDataIndex`. -/
structure State (F : Type) where
  gSensorData : List (AccelerometerData F)
  gSensorDataFilter : AccelerometerData F
  gSensorDataIndex : Int
deriving DecidableEq

/-- Checked read of element `i` of a C array. -/
def elemAt {α : Type} (d : List α) (i : Int) : Option α :=
  if 0 ≤ i then d[i.toNat]? else none

/-- Checked in-place modification of element `i` of a C array (an assignment
to one member of `d[i]`). -/
def storeAt {α : Type} (d : List α) (i : Int) (f : α → α) : Option (List α) :=
  if 0 ≤ i then
    match d[i.toNat]? with
    | some e => some (d.set i.toNat (f e))
    | none => none
  else none

section Generic

variable {F : Type}

/-- The zero-initialised globals at program start: `gSensorData` all zero,
`gSensorDataFilter` zero, `gSensorDataIndex = 0`. -/
def initialState [Zero F] : State F :=
  { gSensorData := List.replicate (SENSOR_HISTORY_LENGTH * 2) ⟨0, 0, 0⟩
    gSensorDataFilter := ⟨0, 0, 0⟩
    gSensorDataIndex := 0 }

/-- One iteration of the body of the `while` loop of `update` (lines 210-212). -/
def filterStep [Add F] [Sub F] [Mul F] [One F] (a : F) (flt : AccelerometerData F)
    (event : ASensorEvent F) : AccelerometerData F :=
  { x := a * event.acceleration.x + (1 - a) * flt.x
    y := a * event.acceleration.y + (1 - a) * flt.y
    z := a * event.acceleration.z + (1 - a) * flt.z }

/-- The `while (ASensorEventQueue_getEvents(gAccQueue, &event, 1) > 0)` loop of
`update`: the pending events are taken one at a time, in arrival order, until
the queue is empty. -/
def drainEvents [Add F] [Sub F] [Mul F] [One F] (a : F) :
    AccelerometerData F → List (ASensorEvent F) → AccelerometerData F
  | flt, [] => flt
  | flt, event :: pending => drainEvents a (filterStep a flt event) pending

/-- `void update()` (lines 205-218) with `a = FILTER_ALPHA` and the events
pending in `gAccQueue` as arguments.  Each chained assignment
`gSensorData[i].x = gSensorData[SENSOR_HISTORY_LENGTH+i].x = gSensorDataFilter.x`
stores to the upper slot first, then to the lower one. -/
def update [Add F] [Sub F] [Mul F] [One F] (a : F) (s : State F)
    (pending : List (ASensorEvent F)) : Option (State F) := do
  let flt := drainEvents a s.gSensorDataFilter pending
  let i := s.gSensorDataIndex
  let n : Int := SENSOR_HISTORY_LENGTH
  let d ← storeAt s.gSensorData (n + i) (fun e => { e with x := flt.x })
  let d ← storeAt d i (fun e => { e with x := flt.x })
  let d ← storeAt d (n + i) (fun e => { e with y := flt.y })
  let d ← storeAt d i (fun e => { e with y := flt.y })
  let d ← storeAt d (n + i) (fun e => { e with z := flt.z })
  let d ← storeAt d i (fun e => { e with z := flt.z })
  some { gSensorData := d
         gSensorDataFilter := flt
         gSensorDataIndex := Int.tmod (i + 1) n }

/-- A sequence of calls to `update`, one list of pending events per call. -/
def updates [Add F] [Sub F] [Mul F] [One F] (a : F) :
    State F → List (List (ASensorEvent F)) → Option (State F)
  | s, [] => some s
  | s, pending :: rest => (update a s pending).bind (fun s' => updates a s' rest)

/-- The filtered samples `s_1, ..., s_k` that a sequence of calls to `update`
appends: the value of `gSensorDataFilter` after the event loop of each call. -/
def samples [Add F] [Sub F] [Mul F] [One F] (a : F) :
    AccelerometerData F → List (List (ASensorEvent F)) → List (AccelerometerData F)
  | _, [] => []
  | flt, pending :: rest =>
      drainEvents a flt pending :: samples a (drainEvents a flt pending) rest

/-- The array has its declared size and the cursor is a valid ring position. -/
def WellFormed (s : State F) : Prop :=
  s.gSensorData.length = SENSOR_HISTORY_LENGTH * 2 ∧
    0 ≤ s.gSensorDataIndex ∧ s.gSensorDataIndex < (SENSOR_HISTORY_LENGTH : Int)

/-- Slot `i` of the lower half and slot `i + N` of the upper half agree. -/
def Mirror (s : State F) : Prop :=
  ∀ i : Nat, i < SENSOR_HISTORY_LENGTH →
    elemAt s.gSensorData (i : Int)
      = elemAt s.gSensorData ((i : Int) + (SENSOR_HISTORY_LENGTH : Int))

/-- The ring invariant after `k` appends: the cursor is `k mod N`, and every
slot congruent to `m` modulo `N` holds sample `m` as long as that sample is
among the last `N`. -/
def RingInv (k : Nat) (t : List (AccelerometerData F)) (s : State F) : Prop :=
  s.gSensorDataIndex = ((k % SENSOR_HISTORY_LENGTH : Nat) : Int) ∧
    s.gSensorData.length = SENSOR_HISTORY_LENGTH * 2 ∧
    t.length = k ∧
    ∀ p m : Nat, p < SENSOR_HISTORY_LENGTH * 2 → m < k → k ≤ m + SENSOR_HISTORY_LENGTH →
      m % SENSOR_HISTORY_LENGTH = p % SENSOR_HISTORY_LENGTH → s.gSensorData[p]? = t[m]?

end Generic



/-! ## Position table -/

section Position

variable {F : Type} [Field F]

/-- The value that the loop body of `initializePositionX` (lines 54-55) stores
at index `i`: `t = float(i) / float(SENSOR_HISTORY_LENGTH - 1)`, then
`-1.f * (1.f - t) + 1.f * t`. -/
def positionAt (i : Nat) : F :=
  -1 * (1 - (i : F) / ((SENSOR_HISTORY_LENGTH - 1 : Nat) : F))
    + 1 * ((i : F) / ((SENSOR_HISTORY_LENGTH - 1 : Nat) : F))

/-- `void initializePositionX()` (lines 52-57), from the previous contents of
`gPositionX`: the loop `for (auto i = 0; i < SENSOR_HISTORY_LENGTH; i++)`
assigns `gPositionX[i]` for each `i` in turn. -/
def initializePositionX (gPositionX : List F) : Option (List F) :=
  (List.range SENSOR_HISTORY_LENGTH).foldlM
    (fun g (i : Nat) => storeAt g (i : Int) (fun _ => positionAt i)) gPositionX

end Position

/-! ## Rendering -/

/-- A member of `AccelerometerData`. -/
inductive Member where
  | x
  | y
  | z
deriving DecidableEq

/-- Reading a member of an `AccelerometerData`. -/
def Member.read {F : Type} : Member → AccelerometerData F → F
  | .x, e => e.x
  | .y, e => e.y
  | .z, e => e.z

/-- The position of a member inside `AccelerometerData`, counted in `GLfloat`s
(three `GLfloat` members, no padding). -/
def Member.offset : Member → Int
  | .x => 0
  | .y => 1
  | .z => 2

/-- `sizeof(GLfloat)` in bytes. -/
def sizeofGLfloat : Nat := 4

/-- `sizeof(AccelerometerData)` in bytes. -/
def sizeofAccelerometerData : Nat := 3 * sizeofGLfloat

/-- The client-memory pointers that `render` hands to `glVertexAttribPointer`. -/
inductive ClientPointer where
  /-- The array `gPositionX`. -/
  | gPositionX
  /-- The address `&gSensorData[index].member`. -/
  | gSensorData (index : Int) (member : Member)
deriving DecidableEq

/-- The primitive modes of `glDrawArrays`. -/
inductive Primitive where
  | GL_POINTS
  | GL_LINES
  | GL_LINE_LOOP
  | GL_LINE_STRIP
  | GL_TRIANGLES
  | GL_TRIANGLE_STRIP
  | GL_TRIANGLE_FAN
deriving DecidableEq

/-- `GL_DEPTH_BUFFER_BIT` -/
def GL_DEPTH_BUFFER_BIT : Nat := 0x00000100

/-- `GL_COLOR_BUFFER_BIT` -/
def GL_COLOR_BUFFER_BIT : Nat := 0x00004000

/-- The OpenGL ES calls issued by `render`; the attribute type is `GL_FLOAT`
in every `glVertexAttribPointer`. -/
inductive GLCall (F : Type) where
  | glClearColor (red green blue alpha : F)
  | glClear (mask : Nat)
  | glUseProgram (program : Nat)
  | glEnableVertexAttribArray (index : Nat)
  | glVertexAttribPointer (index : Nat) (size : Nat) (normalized : Bool) (stride : Nat)
      (pointer : ClientPointer)
  | glUniform4f (location : Nat) (v0 v1 v2 v3 : F)
  | glDrawArrays (mode : Primitive) (first : Int) (count : Int)
deriving DecidableEq

/-- The globals read by `render`: `gProgram`, the three handles and
`gPositionX`. -/
structure Pipeline (F : Type) where
  gProgram : Nat
  gvPositionXHandle : Nat
  gvSensorValueHandle : Nat
  guFragColorHandle : Nat
  gPositionX : List F

/-- `void render()` (lines 220-254): the state after the call and the GL
calls issued, in order.  `checkGlError` only reads and logs the GL error flag
and is left out. -/
def render {F : Type} [Zero F] [One F] (p : Pipeline F) (s : State F) :
    State F × List (GLCall F) :=
  (s,
    [ .glClearColor 0 0 0 1,
      .glClear (GL_DEPTH_BUFFER_BIT ||| GL_COLOR_BUFFER_BIT),
      .glUseProgram p.gProgram,
      .glEnableVertexAttribArray p.gvPositionXHandle,
      .glVertexAttribPointer p.gvPositionXHandle 1 false 0 .gPositionX,
      .glEnableVertexAttribArray p.gvSensorValueHandle,
      .glVertexAttribPointer p.gvSensorValueHandle 1 false sizeofAccelerometerData
        (.gSensorData s.gSensorDataIndex .x),
      .glUniform4f p.guFragColorHandle 1 1 0 1,
      .glDrawArrays .GL_LINE_STRIP 0 SENSOR_HISTORY_LENGTH,
      .glVertexAttribPointer p.gvSensorValueHandle 1 false sizeofAccelerometerData
        (.gSensorData s.gSensorDataIndex .y),
      .glUniform4f p.guFragColorHandle 1 0 1 1,
      .glDrawArrays .GL_LINE_STRIP 0 SENSOR_HISTORY_LENGTH,
      .glVertexAttribPointer p.gvSensorValueHandle 1 false sizeofAccelerometerData
        (.gSensorData s.gSensorDataIndex .z),
      .glUniform4f p.guFragColorHandle 0 1 1 1,
      .glDrawArrays .GL_LINE_STRIP 0 SENSOR_HISTORY_LENGTH ])

/-- `Java_com_android_gl2jni_GL2JNILib_step` (lines 265-269): `update();`
then `render();`. -/
def Java_com_android_gl2jni_GL2JNILib_step {F : Type} [Zero F] [Add F] [Sub F] [Mul F] [One F]
    (a : F) (p : Pipeline F) (s : State F) (pending : List (ASensorEvent F)) :
    Option (State F × List (GLCall F)) :=
  (update a s pending).map (fun s' => render p s')

/-- The states that calls of `update` and `render` reach from the initial one. -/
inductive Reachable {F : Type} [Zero F] [Add F] [Sub F] [Mul F] [One F]
    (a : F) (p : Pipeline F) : State F → Prop where
  | initial : Reachable a p initialState
  | update {s s' : State F} (pending : List (ASensorEvent F)) :
      Reachable a p s → update a s pending = some s' → Reachable a p s'
  | render {s : State F} : Reachable a p s → Reachable a p (render p s).1

/-! ### The part of the GL state machine that the draws depend on -/

/-- One vertex attribute array as set by `glVertexAttribPointer`. -/
structure AttribPointer where
  size : Nat
  normalized : Bool
  stride : Nat
  pointer : ClientPointer
deriving DecidableEq

/-- Current program, vertex attribute arrays and uniform values. -/
structure GLState (F : Type) where
  program : Nat
  attribEnabled : Nat → Bool
  attribPointer : Nat → Option AttribPointer
  uniform : Nat → Option (F × F × F × F)

/-- A draw call together with the GL state it was issued in. -/
structure DrawCall (F : Type) where
  mode : Primitive
  first : Int
  count : Int
  state : GLState F

/-- The effect of one GL call on the tracked state, and the draw it issues. -/
def glStep {F : Type} (g : GLState F) : GLCall F → GLState F × Option (DrawCall F)
  | .glClearColor _ _ _ _ => (g, none)
  | .glClear _ => (g, none)
  | .glUseProgram program => ({ g with program := program }, none)
  | .glEnableVertexAttribArray index =>
      ({ g with attribEnabled := Function.update g.attribEnabled index true }, none)
  | .glVertexAttribPointer index size normalized stride pointer =>
      ({ g with attribPointer :=
          Function.update g.attribPointer index (some ⟨size, normalized, stride, pointer⟩) },
        none)
  | .glUniform4f location v0 v1 v2 v3 =>
      ({ g with uniform := Function.update g.uniform location (some (v0, v1, v2, v3)) }, none)
  | .glDrawArrays mode first count => (g, some ⟨mode, first, count, g⟩)

/-- The draw calls that a sequence of GL calls issues, in order. -/
def drawCalls {F : Type} : GLState F → List (GLCall F) → List (DrawCall F)
  | _, [] => []
  | g, c :: rest =>
      match (glStep g c).2 with
      | some d => d :: drawCalls (glStep g c).1 rest
      | none => drawCalls (glStep g c).1 rest

/-- The `GLfloat` at position `k` of `gSensorData` seen as a flat array of
`GLfloat`s. -/
def floatAt {F : Type} (d : List (AccelerometerData F)) (k : Int) : Option F :=
  (elemAt d (k / 3)).map
    (fun e => if k % 3 = 0 then e.x else if k % 3 = 1 then e.y else e.z)

/-- The value a draw fetches for vertex `v` of a one-component `GL_FLOAT`
attribute array: the `GLfloat` located `v * stride` bytes after the pointer,
a stride of `0` meaning tightly packed. -/
def fetchVertex {F : Type} (p : Pipeline F) (s : State F) (b : AttribPointer) (v : Nat) :
    Option F :=
  if (if b.stride = 0 then b.size * sizeofGLfloat else b.stride) % sizeofGLfloat = 0 then
    match b.pointer with
    | .gPositionX =>
        elemAt p.gPositionX
          ((v * ((if b.stride = 0 then b.size * sizeofGLfloat else b.stride) / sizeofGLfloat)
            : Nat) : Int)
    | .gSensorData index member =>
        floatAt s.gSensorData
          (3 * index + member.offset +
            ((v * ((if b.stride = 0 then b.size * sizeofGLfloat else b.stride) / sizeofGLfloat)
              : Nat) : Int))
  else none

/-- The draw for one member of `AccelerometerData`: a line strip over `N`
vertices starting at `0`, with the given colour in `uFragColor`, `gPositionX`
bound (tightly packed) to the position attribute and the member of
`gSensorData[gSensorDataIndex]` bound to the value attribute with a stride of
one `AccelerometerData`. -/
def IsMemberDraw {F : Type} (p : Pipeline F) (s : State F) (member : Member) (colour : F × F × F × F)
    (d : DrawCall F) : Prop :=
  d.mode = .GL_LINE_STRIP ∧ d.first = 0 ∧ d.count = (SENSOR_HISTORY_LENGTH : Int) ∧
    d.state.program = p.gProgram ∧
    d.state.uniform p.guFragColorHandle = some colour ∧
    d.state.attribEnabled p.gvPositionXHandle = true ∧
    d.state.attribEnabled p.gvSensorValueHandle = true ∧
    d.state.attribPointer p.gvPositionXHandle = some ⟨1, false, 0, .gPositionX⟩ ∧
    d.state.attribPointer p.gvSensorValueHandle
      = some ⟨1, false, sizeofAccelerometerData, .gSensorData s.gSensorDataIndex member⟩

/-! ## Pipeline and sensor set-up -/

/-- What the GL driver answers to the calls of `loadShader`: the handle from
`glCreateShader`, `GL_COMPILE_STATUS` and `GL_INFO_LOG_LENGTH`. -/
structure ShaderOutcome where
  shader : Nat
  compiled : Int
  infoLen : Int
deriving DecidableEq

/-- `GLuint loadShader(GLenum shaderType, const std::string& pSource)`
(lines 72-97): the handle returned. -/
def loadShader (o : ShaderOutcome) : Nat :=
  if o.shader ≠ 0 then
    if o.compiled = 0 then
      if o.infoLen ≠ 0 then 0 else o.shader
    else o.shader
  else o.shader

/-- `GL_TRUE` -/
def GL_TRUE : Int := 1

/-- What the GL driver answers to the calls of `createProgram`: the outcomes of
the two `loadShader` calls, the handle from `glCreateProgram`, `GL_LINK_STATUS`
and the program's `GL_INFO_LOG_LENGTH`. -/
structure ProgramOutcome where
  vertex : ShaderOutcome
  fragment : ShaderOutcome
  program : Nat
  linkStatus : Int
  bufLength : Int
deriving DecidableEq

/-- `GLuint createProgram(...)` (lines 99-135): the handle returned. -/
def createProgram (o : ProgramOutcome) : Nat :=
  if loadShader o.vertex = 0 then 0
  else if loadShader o.fragment = 0 then 0
  else if o.program ≠ 0 then
    if o.linkStatus ≠ GL_TRUE then 0 else o.program
  else o.program

/-- What the platform answers to the calls of `init`: whether each asset,
buffer, sensor manager, sensor, looper and event queue pointer is non-`NULL`,
the GL answers for `createProgram`, the three locations, and the two
`ASensorEventQueue` results. -/
structure SetupOutcome where
  vertexShader : Bool
  vertexShaderBuf : Bool
  fragmentShader : Bool
  fragmentShaderBuf : Bool
  gl : ProgramOutcome
  vPositionX : Nat
  vSensorValue : Nat
  uFragColor : Nat
  sensorManager : Bool
  acc : Bool
  looper : Bool
  accQueue : Bool
  setEventRateResult : Int
  enableSensorResult : Int
deriving DecidableEq

/-- The globals `gProgram`, `gvPositionXHandle`, `gvSensorValueHandle` and
`guFragColorHandle`. -/
structure Handles where
  gProgram : Nat
  gvPositionXHandle : Nat
  gvSensorValueHandle : Nat
  guFragColorHandle : Nat
deriving DecidableEq

/-- How a call ends: it returns a value, or a failed `assert` aborts the
process. -/
inductive Outcome (α : Type) where
  | returned (value : α)
  | aborted
deriving DecidableEq

/-- `assert(cond)`; with `NDEBUG` defined it expands to nothing. -/
def assertThen {α : Type} (ndebug : Bool) (cond : Bool) (k : Outcome α) : Outcome α :=
  if ndebug || cond then k else .aborted

/-- `bool init(AAssetManager *assetManager, jint w, jint h)` (lines 143-203):
the value returned together with the handle globals, from their previous
values.  `ndebug` says whether the file is compiled with `NDEBUG`, which the
source does not fix; when an `assert` is compiled out the following calls are
taken to answer what `o` says.  Logging, `glViewport`, `initializePositionX`
(above) and `ASensorEventQueue_setEventRate` do not influence the result. -/
def init (ndebug : Bool) (o : SetupOutcome) (g : Handles) : Outcome (Bool × Handles) :=
  assertThen ndebug o.vertexShader <|
  assertThen ndebug o.vertexShaderBuf <|
  assertThen ndebug o.fragmentShader <|
  assertThen ndebug o.fragmentShaderBuf <|
  if createProgram o.gl = 0 then
    .returned (false, { g with gProgram := createProgram o.gl })
  else
    assertThen ndebug o.sensorManager <|
    assertThen ndebug o.acc <|
    assertThen ndebug o.looper <|
    assertThen ndebug o.accQueue <|
    assertThen ndebug (decide (0 ≤ o.enableSensorResult)) <|
    .returned (true,
      { gProgram := createProgram o.gl
        gvPositionXHandle := o.vPositionX
        gvSensorValueHandle := o.vSensorValue
        guFragColorHandle := o.uFragColor })

/-- `Java_com_android_gl2jni_GL2JNILib_init` (lines 256-263): calls `init` and
drops its result. -/
def Java_com_android_gl2jni_GL2JNILib_init (ndebug : Bool) (o : SetupOutcome) (g : Handles) :
    Outcome Handles :=
  match init ndebug o g with
  | .returned r => .returned r.2
  | .aborted => .aborted

/-! ## Lemmas on checked array access -/

theorem storeAt_natCast {α : Type} (d : List α) (i : Nat) (f : α → α) (h : i < d.length) :
    ∃ d', storeAt d (i : Int) f = some d' ∧ d'.length = d.length ∧
      ∀ p : Nat, d'[p]? = if p = i then (d[p]?).map f else d[p]? := by
  refine ⟨d.set i (f (d.get ⟨i, h⟩)), ?_, by simp, ?_⟩
  · simp [storeAt, List.getElem?_eq_getElem h]
  · intro p
    by_cases hp : p = i
    · subst hp
      simp [List.getElem?_eq_getElem h, List.getElem?_set, h]
    · have hp' : ¬ i = p := fun e => hp e.symm
      simp [List.getElem?_set, hp, hp']

theorem elemAt_natCast {α : Type} (d : List α) (i : Nat) : elemAt d (i : Int) = d[i]? := by
  simp [elemAt]

theorem initialState_wellFormed {F : Type} [Zero F] : WellFormed (initialState : State F) := by
  refine ⟨by simp [initialState], ?_, ?_⟩ <;> simp [initialState, SENSOR_HISTORY_LENGTH]

theorem initialState_mirror {F : Type} [Zero F] : Mirror (initialState : State F) := by
  intro i hi
  have hcast : (i : Int) + (SENSOR_HISTORY_LENGTH : Int)
      = ((i + SENSOR_HISTORY_LENGTH : Nat) : Int) := by push_cast; rfl
  rw [hcast, elemAt_natCast, elemAt_natCast]
  have h1 : i < SENSOR_HISTORY_LENGTH * 2 := by omega
  have h2 : i + SENSOR_HISTORY_LENGTH < SENSOR_HISTORY_LENGTH * 2 := by omega
  simp [initialState, List.getElem?_replicate, h1, h2]

theorem ringInv_wellFormed {F : Type} {k : Nat} {t : List (AccelerometerData F)} {s : State F}
    (h : RingInv k t s) : WellFormed s := by
  obtain ⟨hidx, hlen, -, -⟩ := h
  have hpos : 0 < SENSOR_HISTORY_LENGTH := by decide
  have := Nat.mod_lt k hpos
  refine ⟨hlen, ?_, ?_⟩ <;> omega

section UpdateLemmas

variable {F : Type} [Add F] [Sub F] [Mul F] [One F]

/-- The state that `update` leaves behind: slots `i` and `N + i` hold the
filter value, every other slot is as before. -/
theorem update_natCast (a : F) (s : State F) (pending : List (ASensorEvent F)) (i : Nat)
    (hi : s.gSensorDataIndex = (i : Int)) (hlt : i < SENSOR_HISTORY_LENGTH)
    (hlen : s.gSensorData.length = SENSOR_HISTORY_LENGTH * 2) :
    ∃ d, update a s pending = some
        { gSensorData := d
          gSensorDataFilter := drainEvents a s.gSensorDataFilter pending
          gSensorDataIndex := (((i + 1) % SENSOR_HISTORY_LENGTH : Nat) : Int) } ∧
      d.length = SENSOR_HISTORY_LENGTH * 2 ∧
      ∀ p : Nat, d[p]? =
        if p = i ∨ p = SENSOR_HISTORY_LENGTH + i then
          some (drainEvents a s.gSensorDataFilter pending)
        else s.gSensorData[p]? := by
  have hcast : ((SENSOR_HISTORY_LENGTH : Nat) : Int) + (i : Int)
      = ((SENSOR_HISTORY_LENGTH + i : Nat) : Int) := by push_cast; rfl
  have hmod : Int.tmod ((i : Int) + 1) (SENSOR_HISTORY_LENGTH : Int)
      = (((i + 1) % SENSOR_HISTORY_LENGTH : Nat) : Int) := by
    rw [Int.tmod_eq_emod (by omega) (by omega)]
    push_cast; rfl
  simp only [update, hi, hcast, hmod]
  obtain ⟨d1, e1, l1, g1⟩ := storeAt_natCast s.gSensorData (SENSOR_HISTORY_LENGTH + i)
    (fun e => { e with x := (drainEvents a s.gSensorDataFilter pending).x }) (by omega)
  obtain ⟨d2, e2, l2, g2⟩ := storeAt_natCast d1 i
    (fun e => { e with x := (drainEvents a s.gSensorDataFilter pending).x }) (by omega)
  obtain ⟨d3, e3, l3, g3⟩ := storeAt_natCast d2 (SENSOR_HISTORY_LENGTH + i)
    (fun e => { e with y := (drainEvents a s.gSensorDataFilter pending).y }) (by omega)
  obtain ⟨d4, e4, l4, g4⟩ := storeAt_natCast d3 i
    (fun e => { e with y := (drainEvents a s.gSensorDataFilter pending).y }) (by omega)
  obtain ⟨d5, e5, l5, g5⟩ := storeAt_natCast d4 (SENSOR_HISTORY_LENGTH + i)
    (fun e => { e with z := (drainEvents a s.gSensorDataFilter pending).z }) (by omega)
  obtain ⟨d6, e6, l6, g6⟩ := storeAt_natCast d5 i
    (fun e => { e with z := (drainEvents a s.gSensorDataFilter pending).z }) (by omega)
  refine ⟨d6, ?_, by omega, ?_⟩
  · simp only [e1, e2, e3, e4, e5, e6, Option.bind_eq_bind, Option.some_bind]
  · intro p
    rw [g6, g5, g4, g3, g2, g1]
    by_cases hp1 : p = i
    · have hne : ¬ p = SENSOR_HISTORY_LENGTH + i := by omega
      have hlt' : p < s.gSensorData.length := by omega
      subst hp1
      simp [hne, List.getElem?_eq_getElem hlt']
    · by_cases hp2 : p = SENSOR_HISTORY_LENGTH + i
      · have hlt' : p < s.gSensorData.length := by omega
        subst hp2
        simp [hp1, List.getElem?_eq_getElem hlt']
      · simp [hp1, hp2]

/-- On a well-formed state `update` returns, and the result is described by
`update_natCast` at the natural number `i = gSensorDataIndex`. -/
theorem update_wellFormed (a : F) (s : State F) (pending : List (ASensorEvent F))
    (hwf : WellFormed s) :
    ∃ s', update a s pending = some s' ∧ WellFormed s' ∧
      s'.gSensorDataFilter = drainEvents a s.gSensorDataFilter pending ∧
      s'.gSensorDataIndex
        = (((s.gSensorDataIndex.toNat + 1) % SENSOR_HISTORY_LENGTH : Nat) : Int) ∧
      ∀ p : Nat, s'.gSensorData[p]? =
        if p = s.gSensorDataIndex.toNat ∨ p = SENSOR_HISTORY_LENGTH + s.gSensorDataIndex.toNat
        then some (drainEvents a s.gSensorDataFilter pending)
        else s.gSensorData[p]? := by
  obtain ⟨hlen, h0, hN⟩ := hwf
  have hi : s.gSensorDataIndex = (s.gSensorDataIndex.toNat : Int) :=
    (Int.toNat_of_nonneg h0).symm
  have hlt : s.gSensorDataIndex.toNat < SENSOR_HISTORY_LENGTH := by omega
  obtain ⟨d, hd, hdlen, hget⟩ := update_natCast a s pending _ hi hlt hlen
  refine ⟨_, hd, ⟨hdlen, ?_, ?_⟩, rfl, rfl, hget⟩
  · exact Int.natCast_nonneg _
  · have hpos : 0 < SENSOR_HISTORY_LENGTH := by decide
    have := Nat.mod_lt (s.gSensorDataIndex.toNat + 1) hpos
    simp only
    omega

theorem updates_append (a : F) (s : State F) (l₁ l₂ : List (List (ASensorEvent F))) :
    updates a s (l₁ ++ l₂) = (updates a s l₁).bind (fun s' => updates a s' l₂) := by
  induction l₁ generalizing s with
  | nil => simp [updates]
  | cons pending rest ih =>
    simp only [List.cons_append, updates]
    cases update a s pending with
    | none => simp
    | some s' => simpa using ih s'

/-- The value of `gSensorDataFilter` after a sequence of calls. -/
theorem samples_append (a : F) (flt : AccelerometerData F)
    (l₁ l₂ : List (List (ASensorEvent F))) :
    samples a flt (l₁ ++ l₂)
      = samples a flt l₁ ++ samples a (l₁.foldl (drainEvents a) flt) l₂ := by
  induction l₁ generalizing flt with
  | nil => simp [samples]
  | cons pending rest ih => simp [samples, ih]

theorem samples_length (a : F) (flt : AccelerometerData F) (l : List (List (ASensorEvent F))) :
    (samples a flt l).length = l.length := by
  induction l generalizing flt with
  | nil => simp [samples]
  | cons pending rest ih => simp [samples, ih]

theorem ringInv_update (a : F) {k : Nat} {t : List (AccelerometerData F)} {s : State F}
    (h : RingInv k t s) (pending : List (ASensorEvent F)) :
    ∃ s', update a s pending = some s' ∧
      s'.gSensorDataFilter = drainEvents a s.gSensorDataFilter pending ∧
      RingInv (k + 1) (t ++ [drainEvents a s.gSensorDataFilter pending]) s' := by
  obtain ⟨s', hs', hwf', hflt, hidx', hget⟩ := update_wellFormed a s pending (ringInv_wellFormed h)
  obtain ⟨hidx, hlen, htlen, hslots⟩ := h
  have hnat : s.gSensorDataIndex.toNat = k % SENSOR_HISTORY_LENGTH := by omega
  rw [hnat] at hidx' hget
  refine ⟨s', hs', hflt, ?_, hwf'.1, by simp [htlen], ?_⟩
  · rw [hidx']
    congr 1
    exact Nat.mod_add_mod k SENSOR_HISTORY_LENGTH 1
  · intro p m hp hm hkm hmod
    rw [hget p]
    simp only [SENSOR_HISTORY_LENGTH] at hp hm hkm hmod hslots ⊢
    by_cases hmk : m = k
    · subst hmk
      have hp' : p = m % 100 ∨ p = 100 + m % 100 := by omega
      rw [if_pos hp', List.getElem?_append_right (by omega)]
      simp [htlen]
    · have hp' : ¬ (p = k % 100 ∨ p = 100 + k % 100) := by omega
      rw [if_neg hp', List.getElem?_append_left (by omega)]
      exact hslots p m hp (by omega) (by omega) hmod

theorem ringInv_updates [Zero F] (a : F) (calls : List (List (ASensorEvent F))) :
    ∃ s, updates a (initialState : State F) calls = some s ∧
      s.gSensorDataFilter
        = calls.foldl (drainEvents a) (initialState : State F).gSensorDataFilter ∧
      RingInv calls.length (samples a (initialState : State F).gSensorDataFilter calls) s := by
  induction calls using List.reverseRecOn with
  | nil =>
    refine ⟨initialState, rfl, rfl, ?_, ?_, rfl, ?_⟩
    · simp [initialState]
    · simp [initialState]
    · intro p m _ hm
      simp at hm
  | append_singleton l pending ih =>
    obtain ⟨s, hs, hflt, hinv⟩ := ih
    obtain ⟨s', hs', hflt', hinv'⟩ := ringInv_update a hinv pending
    refine ⟨s', ?_, ?_, ?_⟩
    · rw [updates_append, hs]
      simp [updates, hs']
    · rw [hflt', hflt]
      simp
    · rw [samples_append]
      simpa [samples, hflt] using hinv'

end UpdateLemmas

/-! ## The history buffer -/

section Buffer

variable {F : Type} [Add F] [Sub F] [Mul F] [One F]

theorem elemAt_of_nonneg {α : Type} (d : List α) (i : Int) (h : 0 ≤ i) :
    elemAt d i = d[i.toNat]? := by
  simp [elemAt, h]

theorem elemAt_of_neg {α : Type} (d : List α) (i : Int) (h : i < 0) : elemAt d i = none := by
  simp [elemAt, not_le.mpr h]

/-- C3 (append postcondition): on every state whose array has its declared
size and whose cursor `idx` is in `[0, N)`, one call to `update`, with any
list of pending events, returns; it stores the resulting filter state at
`gSensorData[idx]` and `gSensorData[idx + N]`, leaves every other element
unchanged, and sets the cursor to `(idx + 1) mod N`, again in `[0, N)`. -/
theorem update_append_postcondition (a : F) (s : State F) (pending : List (ASensorEvent F))
    (hlen : s.gSensorData.length = SENSOR_HISTORY_LENGTH * 2)
    (h0 : 0 ≤ s.gSensorDataIndex)
    (hN : s.gSensorDataIndex < (SENSOR_HISTORY_LENGTH : Int)) :
    ∃ s', update a s pending = some s' ∧
      s'.gSensorDataFilter = drainEvents a s.gSensorDataFilter pending ∧
      elemAt s'.gSensorData s.gSensorDataIndex = some s'.gSensorDataFilter ∧
      elemAt s'.gSensorData (s.gSensorDataIndex + (SENSOR_HISTORY_LENGTH : Int))
        = some s'.gSensorDataFilter ∧
      (∀ j : Int, j ≠ s.gSensorDataIndex →
        j ≠ s.gSensorDataIndex + (SENSOR_HISTORY_LENGTH : Int) →
        elemAt s'.gSensorData j = elemAt s.gSensorData j) ∧
      s'.gSensorData.length = s.gSensorData.length ∧
      s'.gSensorDataIndex = (s.gSensorDataIndex + 1) % (SENSOR_HISTORY_LENGTH : Int) ∧
      0 ≤ s'.gSensorDataIndex ∧ s'.gSensorDataIndex < (SENSOR_HISTORY_LENGTH : Int) := by
  obtain ⟨s', hs', hwf', hflt, hidx', hget⟩ := update_wellFormed a s pending ⟨hlen, h0, hN⟩
  refine ⟨s', hs', hflt, ?_, ?_, ?_, ?_, ?_, hwf'.2.1, hwf'.2.2⟩
  · rw [elemAt_of_nonneg _ _ h0, hget, hflt]
    simp
  · rw [elemAt_of_nonneg _ _ (by omega), hget, hflt]
    have : (s.gSensorDataIndex + (SENSOR_HISTORY_LENGTH : Int)).toNat
        = SENSOR_HISTORY_LENGTH + s.gSensorDataIndex.toNat := by omega
    simp [this]
  · intro j hj1 hj2
    by_cases hj : 0 ≤ j
    · rw [elemAt_of_nonneg _ _ hj, elemAt_of_nonneg _ _ hj, hget]
      have hne : ¬ (j.toNat = s.gSensorDataIndex.toNat ∨
          j.toNat = SENSOR_HISTORY_LENGTH + s.gSensorDataIndex.toNat) := by omega
      rw [if_neg hne]
    · rw [elemAt_of_neg _ _ (by omega), elemAt_of_neg _ _ (by omega)]
  · rw [hwf'.1, hlen]
  · rw [hidx']
    push_cast
    rw [Int.toNat_of_nonneg h0]

/-- An instance of C3 at the initial state over the integers with two pending
events. -/
theorem update_append_postcondition_witness :
    ∃ s', update (1 : Int) initialState [⟨⟨1, 2, 3⟩⟩, ⟨⟨4, 5, 6⟩⟩] = some s' ∧
      s'.gSensorDataFilter = drainEvents 1 (initialState : State Int).gSensorDataFilter
        [⟨⟨1, 2, 3⟩⟩, ⟨⟨4, 5, 6⟩⟩] ∧
      elemAt s'.gSensorData (initialState : State Int).gSensorDataIndex
        = some s'.gSensorDataFilter ∧
      elemAt s'.gSensorData
          ((initialState : State Int).gSensorDataIndex + (SENSOR_HISTORY_LENGTH : Int))
        = some s'.gSensorDataFilter ∧
      (∀ j : Int, j ≠ (initialState : State Int).gSensorDataIndex →
        j ≠ (initialState : State Int).gSensorDataIndex + (SENSOR_HISTORY_LENGTH : Int) →
        elemAt s'.gSensorData j = elemAt (initialState : State Int).gSensorData j) ∧
      s'.gSensorData.length = (initialState : State Int).gSensorData.length ∧
      s'.gSensorDataIndex
        = ((initialState : State Int).gSensorDataIndex + 1) % (SENSOR_HISTORY_LENGTH : Int) ∧
      0 ≤ s'.gSensorDataIndex ∧ s'.gSensorDataIndex < (SENSOR_HISTORY_LENGTH : Int) :=
  update_append_postcondition 1 initialState [⟨⟨1, 2, 3⟩⟩, ⟨⟨4, 5, 6⟩⟩]
    (by simp [initialState]) (by decide) (by decide)

/-- C4 (sampler decoupling): on every state whose array has its declared size
and whose cursor is in `[0, N)`, `update` with no pending event returns,
leaves `gSensorDataFilter` unchanged, stores that value at the cursor and at
its mirror slot, and advances the cursor by one (modulo `N`). -/
theorem update_no_events (a : F) (s : State F)
    (hlen : s.gSensorData.length = SENSOR_HISTORY_LENGTH * 2)
    (h0 : 0 ≤ s.gSensorDataIndex)
    (hN : s.gSensorDataIndex < (SENSOR_HISTORY_LENGTH : Int)) :
    ∃ s', update a s [] = some s' ∧
      s'.gSensorDataFilter = s.gSensorDataFilter ∧
      elemAt s'.gSensorData s.gSensorDataIndex = some s.gSensorDataFilter ∧
      elemAt s'.gSensorData (s.gSensorDataIndex + (SENSOR_HISTORY_LENGTH : Int))
        = some s.gSensorDataFilter ∧
      s'.gSensorDataIndex = (s.gSensorDataIndex + 1) % (SENSOR_HISTORY_LENGTH : Int) := by
  obtain ⟨s', hs', hwf', hflt, hidx', hget⟩ := update_wellFormed a s [] ⟨hlen, h0, hN⟩
  have hflt' : s'.gSensorDataFilter = s.gSensorDataFilter := by simpa [drainEvents] using hflt
  refine ⟨s', hs', hflt', ?_, ?_, ?_⟩
  · rw [elemAt_of_nonneg _ _ h0, hget]
    simp [drainEvents]
  · rw [elemAt_of_nonneg _ _ (by omega), hget]
    have : (s.gSensorDataIndex + (SENSOR_HISTORY_LENGTH : Int)).toNat
        = SENSOR_HISTORY_LENGTH + s.gSensorDataIndex.toNat := by omega
    simp [this, drainEvents]
  · rw [hidx']
    push_cast
    rw [Int.toNat_of_nonneg h0]

/-- An instance of C4 at a state whose cursor is about to wrap. -/
theorem update_no_events_witness :
    ∃ s', update (1 : Int) ⟨List.replicate 200 ⟨0, 0, 0⟩, ⟨7, 8, 9⟩, 99⟩ [] = some s' ∧
      s'.gSensorDataFilter = ⟨7, 8, 9⟩ ∧
      elemAt s'.gSensorData 99 = some ⟨7, 8, 9⟩ ∧
      elemAt s'.gSensorData (99 + (SENSOR_HISTORY_LENGTH : Int)) = some ⟨7, 8, 9⟩ ∧
      s'.gSensorDataIndex = (99 + 1) % (SENSOR_HISTORY_LENGTH : Int) :=
  update_no_events 1 ⟨List.replicate 200 ⟨0, 0, 0⟩, ⟨7, 8, 9⟩, 99⟩
    (List.length_replicate 200 _) (by decide) (by decide)

theorem mirror_update (a : F) (s : State F) (pending : List (ASensorEvent F))
    (hwf : WellFormed s) (hm : Mirror s) :
    ∃ s', update a s pending = some s' ∧ WellFormed s' ∧ Mirror s' := by
  obtain ⟨s', hs', hwf', -, -, hget⟩ := update_wellFormed a s pending hwf
  refine ⟨s', hs', hwf', ?_⟩
  intro i hi
  have h := hm i hi
  have hcast : (i : Int) + (SENSOR_HISTORY_LENGTH : Int)
      = ((i + SENSOR_HISTORY_LENGTH : Nat) : Int) := by push_cast; rfl
  rw [hcast, elemAt_natCast, elemAt_natCast] at h ⊢
  rw [hget, hget, h]
  obtain ⟨-, h0, hN⟩ := hwf
  by_cases hi' : i = s.gSensorDataIndex.toNat
  · have h2 : i + SENSOR_HISTORY_LENGTH = SENSOR_HISTORY_LENGTH + s.gSensorDataIndex.toNat := by
      omega
    rw [if_pos (Or.inl hi'), if_pos (Or.inr h2)]
  · have h1 : ¬ (i = s.gSensorDataIndex.toNat ∨
        i = SENSOR_HISTORY_LENGTH + s.gSensorDataIndex.toNat) := by omega
    have h2 : ¬ (i + SENSOR_HISTORY_LENGTH = s.gSensorDataIndex.toNat ∨
        i + SENSOR_HISTORY_LENGTH = SENSOR_HISTORY_LENGTH + s.gSensorDataIndex.toNat) := by
      omega
    rw [if_neg h1, if_neg h2]

theorem mirror_updates (a : F) (calls : List (List (ASensorEvent F))) (s : State F)
    (hwf : WellFormed s) (hm : Mirror s) :
    ∃ s', updates a s calls = some s' ∧ WellFormed s' ∧ Mirror s' := by
  induction calls generalizing s with
  | nil => exact ⟨s, rfl, hwf, hm⟩
  | cons pending rest ih =>
    obtain ⟨s₁, hs₁, hwf₁, hm₁⟩ := mirror_update a s pending hwf hm
    obtain ⟨s₂, hs₂, hwf₂, hm₂⟩ := ih s₁ hwf₁ hm₁
    exact ⟨s₂, by simp [updates, hs₁, hs₂], hwf₂, hm₂⟩

/-- C2 (mirror invariant): from the initial state every sequence of calls to
`update`, with any pending events, returns a state in which, for all `i < N`,
`gSensorData[i]` and `gSensorData[i + N]` exist and are equal; and `update`
preserves the predicate "for all `i < N`, `gSensorData[i] = gSensorData[i+N]`"
on every state whose array has its declared size and whose cursor is in
`[0, N)`. -/
theorem mirror_invariant [Zero F] (a : F) :
    (∀ calls : List (List (ASensorEvent F)),
      ∃ s, updates a (initialState : State F) calls = some s ∧
        ∀ i : Nat, i < SENSOR_HISTORY_LENGTH →
          ∃ v, elemAt s.gSensorData (i : Int) = some v ∧
            elemAt s.gSensorData ((i : Int) + (SENSOR_HISTORY_LENGTH : Int)) = some v) ∧
    (∀ (s : State F) (pending : List (ASensorEvent F)),
      WellFormed s → Mirror s → ∃ s', update a s pending = some s' ∧ Mirror s') := by
  constructor
  · intro calls
    obtain ⟨s, hs, hwf, hm⟩ :=
      mirror_updates a calls initialState initialState_wellFormed initialState_mirror
    refine ⟨s, hs, ?_⟩
    intro i hi
    have hlt : i < s.gSensorData.length := by
      have := hwf.1
      omega
    refine ⟨s.gSensorData.get ⟨i, hlt⟩, ?_, ?_⟩
    · rw [elemAt_natCast]
      exact List.getElem?_eq_getElem hlt
    · rw [← hm i hi, elemAt_natCast]
      exact List.getElem?_eq_getElem hlt
  · intro s pending hwf hm
    obtain ⟨s', hs', -, hm'⟩ := mirror_update a s pending hwf hm
    exact ⟨s', hs', hm'⟩

/-- An instance of the preservation half of C2: one `update` of the initial
state over the integers. -/
theorem mirror_invariant_witness :
    ∃ s', update (1 : Int) initialState [⟨⟨1, 2, 3⟩⟩] = some s' ∧ Mirror s' :=
  (mirror_invariant (1 : Int)).2 initialState [⟨⟨1, 2, 3⟩⟩]
    initialState_wellFormed initialState_mirror

/-- C1 (window correctness): from the initial state, every sequence of
`k ≥ N` calls to `update`, each with any pending events, returns a state in
which, for every `j < N`, `gSensorData[gSensorDataIndex + j]` is the sample
`s_{k-N+1+j}` appended by call `k-N+1+j` (position `k - N + j` of the list
`s_1, ..., s_k`, counted from `0`). -/
theorem window_correctness [Zero F] (a : F) (calls : List (List (ASensorEvent F)))
    (hk : SENSOR_HISTORY_LENGTH ≤ calls.length) :
    ∃ s, updates a (initialState : State F) calls = some s ∧
      (samples a (initialState : State F).gSensorDataFilter calls).length = calls.length ∧
      ∀ j : Nat, j < SENSOR_HISTORY_LENGTH →
        ∃ v, elemAt s.gSensorData (s.gSensorDataIndex + (j : Int)) = some v ∧
          (samples a (initialState : State F).gSensorDataFilter calls)[
            calls.length - SENSOR_HISTORY_LENGTH + j]? = some v := by
  obtain ⟨s, hs, -, hidx, hlen, htlen, hslots⟩ := ringInv_updates a calls
  refine ⟨s, hs, htlen, ?_⟩
  intro j hj
  have hm : calls.length - SENSOR_HISTORY_LENGTH + j
      < (samples a (initialState : State F).gSensorDataFilter calls).length := by omega
  refine ⟨_, ?_, List.getElem?_eq_getElem hm⟩
  have hcast : s.gSensorDataIndex + (j : Int)
      = ((calls.length % SENSOR_HISTORY_LENGTH + j : Nat) : Int) := by
    rw [hidx]; push_cast; rfl
  rw [hcast, elemAt_natCast, ← List.getElem?_eq_getElem hm]
  simp only [SENSOR_HISTORY_LENGTH] at hj hk hslots ⊢
  exact hslots _ _ (by omega) (by omega) (by omega) (by omega)

/-- An instance of C1 over the integers: `N` calls with one pending event
each. -/
theorem window_correctness_witness :
    SENSOR_HISTORY_LENGTH ≤ (List.replicate 100 [(⟨⟨1, 2, 3⟩⟩ : ASensorEvent Int)]).length ∧
    ∃ s, updates (1 : Int) initialState (List.replicate 100 [⟨⟨1, 2, 3⟩⟩]) = some s ∧
      (samples (1 : Int) (initialState : State Int).gSensorDataFilter
        (List.replicate 100 [⟨⟨1, 2, 3⟩⟩])).length
          = (List.replicate 100 [(⟨⟨1, 2, 3⟩⟩ : ASensorEvent Int)]).length ∧
      ∀ j : Nat, j < SENSOR_HISTORY_LENGTH →
        ∃ v, elemAt s.gSensorData (s.gSensorDataIndex + (j : Int)) = some v ∧
          (samples (1 : Int) (initialState : State Int).gSensorDataFilter
            (List.replicate 100 [⟨⟨1, 2, 3⟩⟩]))[
              (List.replicate 100 [(⟨⟨1, 2, 3⟩⟩ : ASensorEvent Int)]).length
                - SENSOR_HISTORY_LENGTH + j]? = some v :=
  ⟨by simp [SENSOR_HISTORY_LENGTH],
    window_correctness 1 (List.replicate 100 [⟨⟨1, 2, 3⟩⟩]) (by simp [SENSOR_HISTORY_LENGTH])⟩

end Buffer

/-! ## Rendering -/

section Render

variable {F : Type} [Zero F] [One F]

theorem drawCalls_render (p : Pipeline F) (s : State F) (g₀ : GLState F)
    (hne : p.gvPositionXHandle ≠ p.gvSensorValueHandle) :
    ∃ dx dy dz, drawCalls g₀ (render p s).2 = [dx, dy, dz] ∧
      IsMemberDraw p s .x (1, 1, 0, 1) dx ∧
      IsMemberDraw p s .y (1, 0, 1, 1) dy ∧
      IsMemberDraw p s .z (0, 1, 1, 1) dz := by
  refine ⟨_, _, _, rfl, ?_, ?_, ?_⟩ <;>
    simp [IsMemberDraw, glStep, Function.update, hne, hne.symm]

theorem drawCalls_render_value (p : Pipeline F) (s : State F) (g₀ : GLState F) :
    ∀ d ∈ drawCalls g₀ (render p s).2,
      d.first = 0 ∧ d.count = (SENSOR_HISTORY_LENGTH : Int) ∧
        ∃ member, d.state.attribPointer p.gvSensorValueHandle
          = some ⟨1, false, sizeofAccelerometerData, .gSensorData s.gSensorDataIndex member⟩ := by
  intro d hd
  simp only [render, drawCalls, glStep, List.mem_cons, List.mem_singleton, List.not_mem_nil,
    or_false] at hd
  rcases hd with rfl | rfl | rfl
  · exact ⟨rfl, rfl, .x, by simp [Function.update]⟩
  · exact ⟨rfl, rfl, .y, by simp [Function.update]⟩
  · exact ⟨rfl, rfl, .z, by simp [Function.update]⟩

omit [Zero F] [One F] in
theorem fetchVertex_gSensorData (p : Pipeline F) (s : State F) (member : Member) (v : Nat) :
    fetchVertex p s ⟨1, false, sizeofAccelerometerData, .gSensorData s.gSensorDataIndex member⟩ v
      = (elemAt s.gSensorData (s.gSensorDataIndex + (v : Int))).map member.read := by
  have hstride : (if 3 * 4 = 0 then 1 * 4 else 3 * 4) = 12 := rfl
  have hmod : 12 % 4 = 0 := rfl
  have hdiv : 12 / 4 = 3 := rfl
  simp only [fetchVertex, sizeofAccelerometerData, sizeofGLfloat, floatAt, hstride, hmod,
    hdiv, if_true]
  have h1 : (3 * s.gSensorDataIndex + member.offset + ((v * 3 : Nat) : Int)) / 3
      = s.gSensorDataIndex + (v : Int) := by
    cases member <;> simp only [Member.offset] <;> omega
  have h2 : (3 * s.gSensorDataIndex + member.offset + ((v * 3 : Nat) : Int)) % 3
      = member.offset := by
    cases member <;> simp only [Member.offset] <;> omega
  rw [h1, h2]
  cases member <;> simp [Member.offset] <;> rfl

variable [Add F] [Sub F] [Mul F]

theorem reachable_wellFormed {a : F} {p : Pipeline F} {s : State F} (h : Reachable a p s) :
    WellFormed s := by
  induction h with
  | initial => exact initialState_wellFormed
  | update pending _ hs ih =>
    obtain ⟨s'', hs'', hwf, -⟩ := update_wellFormed a _ pending ih
    rw [hs] at hs''
    cases hs''
    exact hwf
  | render _ ih => exact ih

omit [Zero F] [One F] [Add F] [Sub F] [Mul F] in
theorem elemAt_window {s : State F} (hwf : WellFormed s) (j : Nat)
    (hj : j ≤ SENSOR_HISTORY_LENGTH) :
    ∃ e, elemAt s.gSensorData (s.gSensorDataIndex + (j : Int)) = some e := by
  obtain ⟨hlen, h0, hN⟩ := hwf
  have hlt : (s.gSensorDataIndex + (j : Int)).toNat < s.gSensorData.length := by omega
  exact ⟨_, by rw [elemAt_of_nonneg _ _ (by omega)]; exact List.getElem?_eq_getElem hlt⟩

/-- C9 as stated fails for the state that a failed `init` leaves behind:
`gProgram` and the three handles are still `0`, so the position attribute and
the value attribute are the same location, and at each draw that location is
bound to the member of `gSensorData`, not to `gPositionX`. -/
theorem step_draw_sequence_counterexample :
    ¬ ∃ s' calls dx dy dz,
      Java_com_android_gl2jni_GL2JNILib_step (1 : Int) ⟨0, 0, 0, 0, List.replicate 100 0⟩
        initialState [] = some (s', calls) ∧
      drawCalls ⟨0, fun _ => false, fun _ => none, fun _ => none⟩ calls = [dx, dy, dz] ∧
      IsMemberDraw ⟨0, 0, 0, 0, List.replicate 100 0⟩ s' .x (1, 1, 0, 1) dx ∧
      IsMemberDraw ⟨0, 0, 0, 0, List.replicate 100 0⟩ s' .y (1, 0, 1, 1) dy ∧
      IsMemberDraw ⟨0, 0, 0, 0, List.replicate 100 0⟩ s' .z (0, 1, 1, 1) dz := by
  rintro ⟨s', calls, dx, dy, dz, hstep, hd, hx, -, -⟩
  simp only [Java_com_android_gl2jni_GL2JNILib_step, Option.map_eq_some'] at hstep
  obtain ⟨s₁, -, hr⟩ := hstep
  have hs : s₁ = s' := congrArg Prod.fst hr
  have hc : (render ⟨0, 0, 0, 0, List.replicate 100 0⟩ s₁).2 = calls := congrArg Prod.snd hr
  subst hs
  subst hc
  simp only [render, drawCalls, glStep, List.cons.injEq, and_true] at hd
  obtain ⟨hdx, -, -⟩ := hd
  subst hdx
  have hp := hx.2.2.2.2.2.2.2.1
  simp [Function.update] at hp

/-- C9, amended (per-frame draw sequence): on every state whose array has its
declared size and whose cursor is in `[0, N)`, with distinct locations for the
two attributes, one `step` is `update` followed by `render` on the updated
state; the GL calls of `render` issue exactly three draws, for `x`, `y`, `z`
in that order: line strips of `N` vertices with `uFragColor` equal to
`(1,1,0,1)`, `(1,0,1,1)`, `(0,1,1,1)`, with `gPositionX` bound to the position
attribute and the member of `gSensorData[gSensorDataIndex]` bound to the value
attribute with stride `sizeof(AccelerometerData)`; and `render` returns every
state unchanged. -/
theorem step_draw_sequence (a : F) (p : Pipeline F) (g₀ : GLState F) (s : State F)
    (pending : List (ASensorEvent F))
    (hlen : s.gSensorData.length = SENSOR_HISTORY_LENGTH * 2)
    (h0 : 0 ≤ s.gSensorDataIndex)
    (hN : s.gSensorDataIndex < (SENSOR_HISTORY_LENGTH : Int))
    (hne : p.gvPositionXHandle ≠ p.gvSensorValueHandle) :
    (∃ s' calls dx dy dz,
      Java_com_android_gl2jni_GL2JNILib_step a p s pending = some (s', calls) ∧
      update a s pending = some s' ∧
      render p s' = (s', calls) ∧
      drawCalls g₀ calls = [dx, dy, dz] ∧
      IsMemberDraw p s' .x (1, 1, 0, 1) dx ∧
      IsMemberDraw p s' .y (1, 0, 1, 1) dy ∧
      IsMemberDraw p s' .z (0, 1, 1, 1) dz) ∧
    ∀ t : State F,
      (render p t).1.gSensorData = t.gSensorData ∧
      (render p t).1.gSensorDataFilter = t.gSensorDataFilter ∧
      (render p t).1.gSensorDataIndex = t.gSensorDataIndex := by
  refine ⟨?_, fun t => ⟨rfl, rfl, rfl⟩⟩
  obtain ⟨s', hs', -⟩ := update_wellFormed a s pending ⟨hlen, h0, hN⟩
  obtain ⟨dx, dy, dz, hd, hx, hy, hz⟩ := drawCalls_render p s' g₀ hne
  exact ⟨s', (render p s').2, dx, dy, dz,
    by simp [Java_com_android_gl2jni_GL2JNILib_step, hs', render], hs', rfl, hd, hx, hy, hz⟩

/-- An instance of the amended C9 over the integers: the first frame, with one pending
event, position attribute at location `0` and value attribute at location `1`. -/
theorem step_draw_sequence_witness :
    (∃ s' calls dx dy dz,
      Java_com_android_gl2jni_GL2JNILib_step (1 : Int) ⟨3, 0, 1, 2, List.replicate 100 0⟩
        initialState [⟨⟨1, 2, 3⟩⟩] = some (s', calls) ∧
      update (1 : Int) initialState [⟨⟨1, 2, 3⟩⟩] = some s' ∧
      render ⟨3, 0, 1, 2, List.replicate 100 0⟩ s' = (s', calls) ∧
      drawCalls ⟨0, fun _ => false, fun _ => none, fun _ => none⟩ calls = [dx, dy, dz] ∧
      IsMemberDraw ⟨3, 0, 1, 2, List.replicate 100 0⟩ s' .x (1, 1, 0, 1) dx ∧
      IsMemberDraw ⟨3, 0, 1, 2, List.replicate 100 0⟩ s' .y (1, 0, 1, 1) dy ∧
      IsMemberDraw ⟨3, 0, 1, 2, List.replicate 100 0⟩ s' .z (0, 1, 1, 1) dz) ∧
    ∀ t : State Int,
      (render ⟨3, 0, 1, 2, List.replicate 100 0⟩ t).1.gSensorData = t.gSensorData ∧
      (render ⟨3, 0, 1, 2, List.replicate 100 0⟩ t).1.gSensorDataFilter
        = t.gSensorDataFilter ∧
      (render ⟨3, 0, 1, 2, List.replicate 100 0⟩ t).1.gSensorDataIndex
        = t.gSensorDataIndex :=
  step_draw_sequence 1 ⟨3, 0, 1, 2, List.replicate 100 0⟩
    ⟨0, fun _ => false, fun _ => none, fun _ => none⟩ initialState [⟨⟨1, 2, 3⟩⟩]
    (by simp [initialState]) (by decide) (by decide) (by decide)

/-- C10 (index safety): in every state reached from the initial one by calls
of `update` and `render` the cursor is in `[0, N)` and the array has `2N`
elements; the elements at `idx + j` for `j < N` and at `N + idx` exist;
`update` returns for every list of pending events; and every vertex of every
draw of `render` fetches its value from an element of `gSensorData`. -/
theorem index_safety (a : F) (p : Pipeline F) (g₀ : GLState F) (s : State F)
    (h : Reachable a p s) :
    0 ≤ s.gSensorDataIndex ∧ s.gSensorDataIndex < (SENSOR_HISTORY_LENGTH : Int) ∧
    s.gSensorData.length = SENSOR_HISTORY_LENGTH * 2 ∧
    (∀ j : Nat, j < SENSOR_HISTORY_LENGTH →
      ∃ e, elemAt s.gSensorData (s.gSensorDataIndex + (j : Int)) = some e) ∧
    (∃ e, elemAt s.gSensorData ((SENSOR_HISTORY_LENGTH : Int) + s.gSensorDataIndex) = some e) ∧
    (∀ pending : List (ASensorEvent F), ∃ s', update a s pending = some s') ∧
    (∀ d ∈ drawCalls g₀ (render p s).2, ∀ v : Nat, d.first ≤ (v : Int) →
      (v : Int) < d.first + d.count →
      ∃ b x, d.state.attribPointer p.gvSensorValueHandle = some b ∧
        fetchVertex p s b v = some x) := by
  have hwf := reachable_wellFormed h
  refine ⟨hwf.2.1, hwf.2.2, hwf.1, fun j hj => elemAt_window hwf j (by omega), ?_, ?_, ?_⟩
  · rw [add_comm]
    exact elemAt_window hwf SENSOR_HISTORY_LENGTH (le_refl _)
  · intro pending
    obtain ⟨s', hs', -⟩ := update_wellFormed a s pending hwf
    exact ⟨s', hs'⟩
  · intro d hd v _ hv
    obtain ⟨hfirst, hcount, member, hb⟩ := drawCalls_render_value p s g₀ d hd
    rw [hfirst, hcount] at hv
    obtain ⟨e, he⟩ := elemAt_window hwf v (by omega)
    exact ⟨_, member.read e, hb, by rw [fetchVertex_gSensorData, he]; rfl⟩

/-- An instance of C10 over the integers at the initial state. -/
theorem index_safety_witness :
    0 ≤ (initialState : State Int).gSensorDataIndex ∧
    (initialState : State Int).gSensorDataIndex < (SENSOR_HISTORY_LENGTH : Int) ∧
    (initialState : State Int).gSensorData.length = SENSOR_HISTORY_LENGTH * 2 ∧
    (∀ j : Nat, j < SENSOR_HISTORY_LENGTH →
      ∃ e, elemAt (initialState : State Int).gSensorData
        ((initialState : State Int).gSensorDataIndex + (j : Int)) = some e) ∧
    (∃ e, elemAt (initialState : State Int).gSensorData
      ((SENSOR_HISTORY_LENGTH : Int) + (initialState : State Int).gSensorDataIndex) = some e) ∧
    (∀ pending : List (ASensorEvent Int), ∃ s', update (1 : Int) initialState pending = some s') ∧
    (∀ d ∈ drawCalls ⟨0, fun _ => false, fun _ => none, fun _ => none⟩
        (render ⟨3, 0, 1, 2, List.replicate 100 0⟩ (initialState : State Int)).2,
      ∀ v : Nat, d.first ≤ (v : Int) → (v : Int) < d.first + d.count →
      ∃ b x, d.state.attribPointer 1 = some b ∧
        fetchVertex ⟨3, 0, 1, 2, List.replicate 100 0⟩ (initialState : State Int) b v
          = some x) :=
  index_safety 1 ⟨3, 0, 1, 2, List.replicate 100 0⟩
    ⟨0, fun _ => false, fun _ => none, fun _ => none⟩ initialState Reachable.initial

end Render

/-! ## The filter and the position table in exact arithmetic -/

section Exact

variable {F : Type} [LinearOrderedField F]

theorem drainEvents_replicate (a : F) (flt : AccelerometerData F) (e : ASensorEvent F)
    (k : Nat) :
    (drainEvents a flt (List.replicate k e)).x - e.acceleration.x
        = (1 - a) ^ k * (flt.x - e.acceleration.x) ∧
      (drainEvents a flt (List.replicate k e)).y - e.acceleration.y
        = (1 - a) ^ k * (flt.y - e.acceleration.y) ∧
      (drainEvents a flt (List.replicate k e)).z - e.acceleration.z
        = (1 - a) ^ k * (flt.z - e.acceleration.z) := by
  induction k generalizing flt with
  | zero => simp [drainEvents]
  | succ k ih =>
    obtain ⟨hx, hy, hz⟩ := ih (filterStep a flt e)
    simp only [List.replicate_succ, drainEvents]
    rw [hx, hy, hz]
    simp only [filterStep]
    refine ⟨by ring, by ring, by ring⟩

theorem drainEvents_replicate_abs (a : F) (flt : AccelerometerData F) (e : ASensorEvent F)
    (k : Nat) :
    |(drainEvents a flt (List.replicate k e)).x - e.acceleration.x|
        = |1 - a| ^ k * |flt.x - e.acceleration.x| ∧
      |(drainEvents a flt (List.replicate k e)).y - e.acceleration.y|
        = |1 - a| ^ k * |flt.y - e.acceleration.y| ∧
      |(drainEvents a flt (List.replicate k e)).z - e.acceleration.z|
        = |1 - a| ^ k * |flt.z - e.acceleration.z| := by
  obtain ⟨hx, hy, hz⟩ := drainEvents_replicate a flt e k
  rw [hx, hy, hz]
  refine ⟨?_, ?_, ?_⟩ <;> rw [abs_mul, abs_pow]

/-- C5 (filter convergence): in exact arithmetic, for every smoothing
coefficient `a ≤ 1` (the spec's `0 < α ≤ 1`, the code's `0.1`), every prior
filtered value, every constant event and every `k`, folding `k` copies of the
event through the filter step of `update` leaves, on each axis, an error of
`(1 - a)^k` times the initial error; and for `a = 1` a single step returns the
raw value, whatever the prior state. -/
theorem filter_convergence (a : F) (flt : AccelerometerData F) (e : ASensorEvent F) (k : Nat)
    (ha : a ≤ 1) :
    (|(drainEvents a flt (List.replicate k e)).x - e.acceleration.x|
        = (1 - a) ^ k * |flt.x - e.acceleration.x| ∧
      |(drainEvents a flt (List.replicate k e)).y - e.acceleration.y|
        = (1 - a) ^ k * |flt.y - e.acceleration.y| ∧
      |(drainEvents a flt (List.replicate k e)).z - e.acceleration.z|
        = (1 - a) ^ k * |flt.z - e.acceleration.z|) ∧
    (a = 1 → drainEvents a flt [e]
      = ⟨e.acceleration.x, e.acceleration.y, e.acceleration.z⟩) := by
  have habs := drainEvents_replicate_abs a flt e k
  have h : |1 - a| = 1 - a := abs_of_nonneg (by linarith)
  rw [h] at habs
  refine ⟨habs, ?_⟩
  intro ha1
  subst ha1
  simp [drainEvents, filterStep]

/-- An instance of C5 over the rationals: `a = 1/10` for the decay, `a = 1`
for the identity. -/
theorem filter_convergence_witness :
    ((1 / 10 : ℚ) ≤ 1 ∧
      |(drainEvents (1 / 10 : ℚ) ⟨3, 0, -2⟩ (List.replicate 2 ⟨⟨1, 5, 0⟩⟩)).x - 1|
        = (1 - 1 / 10) ^ 2 * |(3 : ℚ) - 1|) ∧
    ((1 : ℚ) ≤ 1 ∧ drainEvents (1 : ℚ) ⟨3, 0, -2⟩ [⟨⟨1, 5, 0⟩⟩] = ⟨1, 5, 0⟩) :=
  ⟨⟨by norm_num,
      (filter_convergence (1 / 10 : ℚ) ⟨3, 0, -2⟩ ⟨⟨1, 5, 0⟩⟩ 2 (by norm_num)).1.1⟩,
    ⟨le_refl 1,
      (filter_convergence (1 : ℚ) ⟨3, 0, -2⟩ ⟨⟨1, 5, 0⟩⟩ 0 (le_refl 1)).2 rfl⟩⟩

theorem positionAt_eq (i : Nat) :
    (positionAt i : F) = -1 + 2 * (i : F) / ((SENSOR_HISTORY_LENGTH : F) - 1) := by
  have h : ((SENSOR_HISTORY_LENGTH - 1 : Nat) : F) = (SENSOR_HISTORY_LENGTH : F) - 1 := by
    norm_num [SENSOR_HISTORY_LENGTH]
  rw [positionAt, h]
  ring

theorem positionLoop (n : Nat) (g : List F) (hn : n ≤ g.length) :
    ∃ g', (List.range n).foldlM
        (fun g (i : Nat) => storeAt g (i : Int) (fun _ => (positionAt i : F))) g = some g' ∧
      g'.length = g.length ∧
      ∀ i : Nat, g'[i]? = if i < n then (g[i]?).map (fun _ => positionAt i) else g[i]? := by
  induction n with
  | zero => exact ⟨g, rfl, rfl, fun i => by simp⟩
  | succ n ih =>
    obtain ⟨g₁, h₁, hlen₁, hget₁⟩ := ih (by omega)
    obtain ⟨g₂, h₂, hlen₂, hget₂⟩ :=
      storeAt_natCast g₁ n (fun _ => (positionAt n : F)) (by omega)
    refine ⟨g₂, ?_, by omega, ?_⟩
    · rw [List.range_succ, List.foldlM_append, h₁]
      simpa using h₂
    · intro i
      rw [hget₂, hget₁]
      by_cases hi : i = n
      · subst hi
        simp
      · by_cases hlt : i < n
        · have : i < n + 1 := by omega
          simp [hi, hlt, this]
        · have : ¬ i < n + 1 := by omega
          simp [hi, hlt, this]

/-- C6 (position table shape): in exact arithmetic, from any previous contents
of the `N`-element array `gPositionX`, `initializePositionX` returns a table of
`N` entries with entry `i` equal to `-1 + 2*i/(N-1)`; its first entry is `-1`,
its last entry is `1`, it is strictly increasing, and consecutive entries
differ by `2/(N-1)`. -/
theorem positionTable_shape (g : List F) (hg : g.length = SENSOR_HISTORY_LENGTH) :
    ∃ g', initializePositionX g = some g' ∧ g'.length = SENSOR_HISTORY_LENGTH ∧
      (∀ i : Nat, i < SENSOR_HISTORY_LENGTH →
        g'[i]? = some (-1 + 2 * (i : F) / ((SENSOR_HISTORY_LENGTH : F) - 1))) ∧
      g'[0]? = some (-1 : F) ∧
      g'[SENSOR_HISTORY_LENGTH - 1]? = some (1 : F) ∧
      (∀ (i j : Nat) (x y : F), i < j → j < SENSOR_HISTORY_LENGTH →
        g'[i]? = some x → g'[j]? = some y → x < y) ∧
      (∀ (i : Nat) (x y : F), i + 1 < SENSOR_HISTORY_LENGTH →
        g'[i]? = some x → g'[i + 1]? = some y →
        y - x = 2 / ((SENSOR_HISTORY_LENGTH : F) - 1)) := by
  obtain ⟨g', hg', hlen', hget'⟩ := positionLoop SENSOR_HISTORY_LENGTH g (by omega)
  have hentry : ∀ i : Nat, i < SENSOR_HISTORY_LENGTH →
      g'[i]? = some (-1 + 2 * (i : F) / ((SENSOR_HISTORY_LENGTH : F) - 1)) := by
    intro i hi
    have hlt : i < g.length := by omega
    rw [hget', if_pos hi, List.getElem?_eq_getElem hlt, Option.map_some', positionAt_eq]
  have hpos : (0 : F) < (SENSOR_HISTORY_LENGTH : F) - 1 := by
    norm_num [SENSOR_HISTORY_LENGTH]
  refine ⟨g', hg', by omega, hentry, ?_, ?_, ?_, ?_⟩
  · rw [hentry 0 (by decide)]
    simp
  · rw [hentry (SENSOR_HISTORY_LENGTH - 1) (by decide)]
    congr 1
    norm_num [SENSOR_HISTORY_LENGTH]
  · intro i j x y hij hj hx hy
    rw [hentry i (by omega)] at hx
    rw [hentry j hj] at hy
    cases hx
    cases hy
    have hcast : (i : F) < (j : F) := by exact_mod_cast hij
    have : 2 * (i : F) / ((SENSOR_HISTORY_LENGTH : F) - 1)
        < 2 * (j : F) / ((SENSOR_HISTORY_LENGTH : F) - 1) :=
      div_lt_div_of_pos_right (by linarith) hpos
    linarith
  · intro i x y hi hx hy
    rw [hentry i (by omega)] at hx
    rw [hentry (i + 1) hi] at hy
    cases hx
    cases hy
    push_cast
    ring

/-- An instance of C6 over the rationals, from the zero-initialised table. -/
theorem positionTable_shape_witness :
    ∃ g', initializePositionX (List.replicate 100 (0 : ℚ)) = some g' ∧
      g'.length = SENSOR_HISTORY_LENGTH ∧
      (∀ i : Nat, i < SENSOR_HISTORY_LENGTH →
        g'[i]? = some (-1 + 2 * (i : ℚ) / ((SENSOR_HISTORY_LENGTH : ℚ) - 1))) ∧
      g'[0]? = some (-1 : ℚ) ∧
      g'[SENSOR_HISTORY_LENGTH - 1]? = some (1 : ℚ) ∧
      (∀ (i j : Nat) (x y : ℚ), i < j → j < SENSOR_HISTORY_LENGTH →
        g'[i]? = some x → g'[j]? = some y → x < y) ∧
      (∀ (i : Nat) (x y : ℚ), i + 1 < SENSOR_HISTORY_LENGTH →
        g'[i]? = some x → g'[i + 1]? = some y →
        y - x = 2 / ((SENSOR_HISTORY_LENGTH : ℚ) - 1)) :=
  positionTable_shape (List.replicate 100 (0 : ℚ)) (List.length_replicate 100 _)

end Exact

/-! ## Pipeline and sensor set-up -/

theorem loadShader_eq_zero_of_log (o : ShaderOutcome) (hc : o.compiled = 0)
    (hlog : o.infoLen ≠ 0) : loadShader o = 0 := by
  by_cases hs : o.shader = 0
  · simp [loadShader, hs]
  · simp [loadShader, hs, hc, hlog]

theorem createProgram_eq_zero_of_loadShader (o : ProgramOutcome)
    (h : loadShader o.vertex = 0 ∨ loadShader o.fragment = 0) : createProgram o = 0 := by
  rcases h with h | h
  · simp [createProgram, h]
  · by_cases hv : loadShader o.vertex = 0
    · simp [createProgram, hv]
    · simp [createProgram, hv, h]

theorem createProgram_eq_zero_of_link (o : ProgramOutcome) (h : o.linkStatus ≠ GL_TRUE) :
    createProgram o = 0 := by
  unfold createProgram
  split_ifs with h₁ h₂ h₃
  · rfl
  · rfl
  · rfl
  · exact not_not.mp h₃

theorem assertThen_eq_returned {α : Type} {ndebug cond : Bool} {k : Outcome α} {v : α}
    (h : assertThen ndebug cond k = .returned v) : k = .returned v := by
  unfold assertThen at h
  split_ifs at h
  exact h

theorem assertThen_aborted {α : Type} (ndebug cond : Bool) {k : Outcome α}
    (h : k = .aborted) : assertThen ndebug cond k = .aborted := by
  unfold assertThen
  split_ifs
  · exact h
  · rfl

theorem assertThen_failed {α : Type} (k : Outcome α) :
    assertThen false false k = .aborted := rfl

theorem init_false_of_createProgram (ndebug : Bool) (o : SetupOutcome) (g : Handles)
    (h₁ : o.vertexShader = true) (h₂ : o.vertexShaderBuf = true)
    (h₃ : o.fragmentShader = true) (h₄ : o.fragmentShaderBuf = true)
    (h : createProgram o.gl = 0) :
    init ndebug o g = .returned (false, { g with gProgram := 0 }) := by
  simp [init, assertThen, h₁, h₂, h₃, h₄, h]

/-- C7 at the failing input: the vertex shader has handle `7`, compile status
`0` and an empty info log.  `loadShader` returns the handle `7` rather than
`0`; with a fragment shader that compiles and a link status of `GL_TRUE`,
`createProgram` returns the program handle `9` and `init` returns `true` with
`gProgram = 9`. -/
theorem loadShader_compile_failure_empty_log :
    loadShader ⟨7, 0, 0⟩ = 7 ∧
    createProgram ⟨⟨7, 0, 0⟩, ⟨8, 1, 0⟩, 9, GL_TRUE, 0⟩ = 9 ∧
    init false
        ⟨true, true, true, true, ⟨⟨7, 0, 0⟩, ⟨8, 1, 0⟩, 9, GL_TRUE, 0⟩, 0, 1, 2,
          true, true, true, true, 0, 0⟩
        ⟨0, 0, 0, 0⟩
      = .returned (true, ⟨9, 0, 1, 2⟩) := by
  decide

/-- C8 as stated fails: with every asset, shader and sensor object present and
`ASensorEventQueue_enableSensor` answering `-1`, `init` does not return
`false`: compiled with assertions it aborts at `assert(enableSensorResult >= 0)`,
compiled with `NDEBUG` it returns `true`. -/
theorem init_sensor_failure_counterexample :
    init false
        ⟨true, true, true, true, ⟨⟨7, 1, 0⟩, ⟨8, 1, 0⟩, 9, GL_TRUE, 0⟩, 0, 1, 2,
          true, true, true, true, 0, -1⟩
        ⟨0, 0, 0, 0⟩
      = .aborted ∧
    init true
        ⟨true, true, true, true, ⟨⟨7, 1, 0⟩, ⟨8, 1, 0⟩, 9, GL_TRUE, 0⟩, 0, 1, 2,
          true, true, true, true, 0, -1⟩
        ⟨0, 0, 0, 0⟩
      = .returned (true, ⟨9, 0, 1, 2⟩) := by
  decide

/-- C8, amended: `init` returns `false` only when `createProgram` returns `0`;
and compiled with assertions, once the assets are present and `createProgram`
has returned a non-zero handle, an absent sensor manager or accelerometer, a
looper or event queue that cannot be created, or a failure to enable the
sensor makes `init` abort at the failed `assert` instead of returning. -/
theorem init_sensor_failure (ndebug : Bool) (o : SetupOutcome) (g : Handles) :
    (∀ h : Handles, init ndebug o g = .returned (false, h) →
      createProgram o.gl = 0 ∧ h.gProgram = 0) ∧
    (ndebug = false → o.vertexShader = true → o.vertexShaderBuf = true →
      o.fragmentShader = true → o.fragmentShaderBuf = true → createProgram o.gl ≠ 0 →
      (o.sensorManager = false ∨ o.acc = false ∨ o.looper = false ∨ o.accQueue = false ∨
        o.enableSensorResult < 0) →
      init ndebug o g = .aborted) := by
  constructor
  · intro h hret
    have h5 := assertThen_eq_returned (assertThen_eq_returned
      (assertThen_eq_returned (assertThen_eq_returned hret)))
    by_cases hc : createProgram o.gl = 0
    · rw [if_pos hc] at h5
      cases h5
      exact ⟨hc, hc⟩
    · rw [if_neg hc] at h5
      have h6 := assertThen_eq_returned (assertThen_eq_returned (assertThen_eq_returned
        (assertThen_eq_returned (assertThen_eq_returned h5))))
      cases h6
  · intro hn h₁ h₂ h₃ h₄ hc hfail
    subst hn
    unfold init
    rw [h₁, h₂, h₃, h₄, if_neg hc]
    simp only [assertThen, Bool.false_or, if_true]
    rcases hfail with h | h | h | h | h
    · simp [h]
    · simp [h]
    · simp [h]
    · simp [h]
    · have : ¬ (0 ≤ o.enableSensorResult) := by omega
      simp [this]

/-- An instance of the amended C8: the sensor manager is absent. -/
theorem init_sensor_failure_witness :
    init false
        ⟨true, true, true, true, ⟨⟨7, 1, 0⟩, ⟨8, 1, 0⟩, 9, GL_TRUE, 0⟩, 0, 1, 2,
          false, true, true, true, 0, 0⟩
        ⟨0, 0, 0, 0⟩
      = .aborted :=
  (init_sensor_failure false
      ⟨true, true, true, true, ⟨⟨7, 1, 0⟩, ⟨8, 1, 0⟩, 9, GL_TRUE, 0⟩, 0, 1, 2,
        false, true, true, true, 0, 0⟩
      ⟨0, 0, 0, 0⟩).2
    rfl rfl rfl rfl rfl (by decide) (Or.inl rfl)

end SensorGraph
